import Mathlib

/-!
# Verification of the signal-generation and risk-sizing engine

Shallow embedding (over `ℚ`) of the core signal modules of the
`polymarket_indicator` repository:

* `app/signal/edge.py` — edge gate (`direction_from_edge`),
* `app/signal/kelly.py` — fractional Kelly sizing (`kelly_fraction`,
  `recommended_size_usd`),
* `app/signal/score_to_prob.py` — score-to-probability map,
* `app/signal/weights.py` — composite weighted score,
* `app/polymarket/depth.py` — order-book depth walk (`max_safe_size_usd`),
* `app/fetchers/base.py` — per-source circuit breaker state machine,
* `app/signal/engine_15m.py` — intraday 15-minute TA engine.

Python floats are modelled as exact rationals; Python's `round(x, n)` is
modelled by `roundTo n x` (round to the nearest multiple of `10 ^ (-n : ℤ)`,
ties rounded up as in Mathlib's `round`).  Configuration values read through
`get_settings()` are collected in a `Settings` structure; `defaultSettings`
carries the defaults from `app/config.py`.
-/

/-- Python's `round(x, n)`: round to `n` decimal places. -/
def roundTo (n : ℕ) (x : ℚ) : ℚ :=
  ((round (x * 10 ^ n) : ℤ) : ℚ) / 10 ^ n

/-- `round` is monotone. -/
theorem round_mono_rat {x y : ℚ} (h : x ≤ y) : round x ≤ round y := by
  rw [round_eq, round_eq]
  exact Int.floor_le_floor (by linarith)

/-- `roundTo` is monotone. -/
theorem roundTo_mono (n : ℕ) {x y : ℚ} (h : x ≤ y) : roundTo n x ≤ roundTo n y := by
  have hp : (0 : ℚ) < 10 ^ n := by positivity
  have h2 : ((round (x * 10 ^ n) : ℤ) : ℚ) ≤ ((round (y * 10 ^ n) : ℤ) : ℚ) := by
    exact_mod_cast round_mono_rat (by nlinarith)
  have h3 := mul_le_mul_of_nonneg_right h2 (le_of_lt (inv_pos.mpr hp))
  simpa [roundTo, div_eq_mul_inv] using h3

/-- Rounding moves a value by at most half of the last decimal place. -/
theorem abs_roundTo_sub (n : ℕ) (x : ℚ) :
    |roundTo n x - x| ≤ 1 / (2 * 10 ^ n) := by
  have hp : (0 : ℚ) < 10 ^ n := by positivity
  have key : roundTo n x - x = (((round (x * 10 ^ n) : ℤ) : ℚ) - x * 10 ^ n) / 10 ^ n := by
    rw [roundTo]
    field_simp
    ring
  have hnum : |((round (x * 10 ^ n) : ℤ) : ℚ) - x * 10 ^ n| ≤ 1 / 2 := by
    calc |((round (x * 10 ^ n) : ℤ) : ℚ) - x * 10 ^ n|
        = |x * 10 ^ n - ((round (x * 10 ^ n) : ℤ) : ℚ)| := abs_sub_comm _ _
      _ ≤ 1 / 2 := abs_sub_round _
  rw [key, abs_div, abs_of_pos hp]
  have : (1 : ℚ) / (2 * 10 ^ n) = (1 / 2) / 10 ^ n := by
    ring
  rw [this]
  gcongr

/-- Rounding a non-negative value stays non-negative. -/
theorem roundTo_nonneg (n : ℕ) {x : ℚ} (h : 0 ≤ x) : 0 ≤ roundTo n x := by
  have : roundTo n 0 ≤ roundTo n x := roundTo_mono n h
  simpa [roundTo] using this

/-- `roundTo n` does not move a value up by more than half a unit in the last
place; stated at `n = 2` (cents) for the sizing bounds. -/
theorem roundTo_two_le (x : ℚ) : roundTo 2 x ≤ x + 1 / 200 := by
  have h := abs_roundTo_sub 2 x
  rw [abs_le] at h
  have := h.2
  norm_num at this ⊢
  linarith

/-- `roundTo 4` moves a value by at most `1 / 20000`. -/
theorem roundTo_four_le (x : ℚ) : roundTo 4 x ≤ x + 1 / 20000 := by
  have h := abs_roundTo_sub 4 x
  rw [abs_le] at h
  have := h.2
  norm_num at this ⊢
  linarith

/-!
## Configuration (`app/config.py`)

Only the fields the verified modules read.  The numeric defaults are the
`Field(default=...)` values of `Settings` in `app/config.py`.
-/

/-- The configuration fields consumed by the verified modules. -/
structure Settings where
  edgeThreshold : ℚ
  kellyFraction : ℚ
  maxBankrollPct : ℚ
  slippageLimit : ℚ
  circuitFailureThreshold : ℕ
  circuitOpenSeconds : ℚ
  retryAttempts : ℕ
deriving DecidableEq

/-- Defaults from `app/config.py`: edge 5%, Kelly multiplier 0.25, bankroll cap
5%, slippage 1%, circuit threshold 3 failures, circuit cooldown 300 s. -/
def defaultSettings : Settings :=
  { edgeThreshold := 5 / 100
    kellyFraction := 1 / 4
    maxBankrollPct := 5 / 100
    slippageLimit := 1 / 100
    circuitFailureThreshold := 3
    circuitOpenSeconds := 300
    retryAttempts := 3 }

/-!
## Edge gate (`app/signal/edge.py`)
-/

/-- `compute_edge`: `round(model_p - market_p_yes, 4)`. -/
def computeEdge (modelP marketPYes : ℚ) : ℚ :=
  roundTo 4 (modelP - marketPYes)

/-- `direction_from_edge`: returns `(direction, edge)` with direction
`"YES" | "NO" | "NO_TRADE"`. -/
def directionFromEdge (s : Settings) (modelP marketPYes : ℚ)
    (marketBid : Option ℚ) : String × ℚ :=
  let edgeYes := computeEdge modelP marketPYes
  if edgeYes ≥ s.edgeThreshold then ("YES", edgeYes)
  else
    match marketBid with
    | some b =>
        let edgeNo := roundTo 4 (b - modelP)
        if edgeNo ≥ s.edgeThreshold then ("NO", edgeNo) else ("NO_TRADE", edgeYes)
    | none => ("NO_TRADE", edgeYes)

/-!
## Kelly sizing (`app/signal/kelly.py`)
-/

/-- `kelly_fraction`: Kelly fraction for buying YES at `price_yes`,
clamped to `[0, 1]`, `0` outside the open unit price interval. -/
def kellyFraction (modelP priceYes : ℚ) : ℚ :=
  if priceYes ≤ 0 ∨ priceYes ≥ 1 then 0
  else
    let q := 1 - modelP
    let b := (1 - priceYes) / priceYes
    let k := (modelP * b - q) / b
    max 0 (min 1 k)

/-- `recommended_size_usd`: fractional Kelly times bankroll, capped by the
bankroll percentage, the liquidity cap and an optional positive user cap,
rounded to cents. -/
def recommendedSizeUsd (s : Settings) (modelP marketPYes bankrollUsd maxSafeSizeUsd : ℚ)
    (maxBetUsd : Option ℚ) (kellyFractionOverride : Option ℚ) : ℚ :=
  let k := kellyFraction modelP marketPYes
  let frac := kellyFractionOverride.getD s.kellyFraction
  let capPct := s.maxBankrollPct
  let sizeKelly := bankrollUsd * k * frac
  let sizeCapPct := bankrollUsd * capPct
  let sizeLiquidity := maxSafeSizeUsd
  let rec0 := min (min sizeKelly sizeCapPct) sizeLiquidity
  let rec1 :=
    match maxBetUsd with
    | some mb => if mb > 0 then min rec0 mb else rec0
    | none => rec0
  roundTo 2 rec1

/-!
## Score-to-probability map (`app/signal/score_to_prob.py`)
-/

/-- `score_to_model_p`: clamped linear map from composite score in `[-2, 2]`
to a model probability in `[0.15, 0.85]`, interior values rounded to 4
decimal places. -/
def scoreToModelP (score : ℚ) : ℚ :=
  if score ≤ -2 then 15 / 100
  else if score ≥ 2 then 85 / 100
  else roundTo 4 (15 / 100 + (score + 2) / 4 * (70 / 100))

/-!
## Composite weighted score (`app/signal/weights.py`)

The weight dictionary together with its `w.get(source_id, 0.0)` lookup is
modelled as a total function `String → ℚ` (absent keys map to `0`).
-/

/-- Loop body of `weighted_score`: accumulate `(total, total_weight)` over
results, skipping null scores. -/
def weightedScoreStep (w : String → ℚ) (tw : ℚ × ℚ) (r : String × Option ℚ) : ℚ × ℚ :=
  match r.2 with
  | none => tw
  | some score => (tw.1 + score * w r.1, tw.2 + w r.1)

/-- `weighted_score`: normalized weighted sum of the non-null scores,
clamped to `[-2, 2]`; neutral `0.0` when the accumulated weight is `≤ 0`. -/
def weightedScore (w : String → ℚ) (results : List (String × Option ℚ)) : ℚ :=
  let acc := results.foldl (weightedScoreStep w) ((0 : ℚ), (0 : ℚ))
  if acc.2 ≤ 0 then 0 else max (-2) (min 2 (acc.1 / acc.2))

/-- Spec-side view: total `score * weight` over the results with a non-null
score. -/
def activeTotal (w : String → ℚ) (results : List (String × Option ℚ)) : ℚ :=
  (results.filterMap (fun r => r.2.map (fun sc => sc * w r.1))).sum

/-- Spec-side view: total weight of the results with a non-null score. -/
def activeWeight (w : String → ℚ) (results : List (String × Option ℚ)) : ℚ :=
  ((results.filter (fun r => !r.2.isNone)).map (fun r => w r.1)).sum

theorem weightedScore_fold_eq (w : String → ℚ) (results : List (String × Option ℚ)) :
    ∀ t tw : ℚ, results.foldl (weightedScoreStep w) (t, tw) =
      (t + activeTotal w results, tw + activeWeight w results) := by
  induction results with
  | nil => intro t tw; simp [activeTotal, activeWeight]
  | cons r rest ih =>
      intro t tw
      rcases r with ⟨id, sc⟩
      cases sc with
      | none =>
          simp [weightedScoreStep, activeTotal, activeWeight, ih]
      | some v =>
          simp [weightedScoreStep, activeTotal, activeWeight, ih]
          constructor <;> ring

theorem weightedScore_eq (w : String → ℚ) (results : List (String × Option ℚ)) :
    weightedScore w results =
      if activeWeight w results ≤ 0 then 0
      else max (-2) (min 2 (activeTotal w results / activeWeight w results)) := by
  unfold weightedScore
  rw [weightedScore_fold_eq]
  simp

/-!
## Order-book depth walk (`app/polymarket/depth.py`)
-/

/-- One price level of the book (`OrderBookLevel` in `app/polymarket/models.py`). -/
structure OrderBookLevel where
  price : ℚ
  size : ℚ
deriving DecidableEq

/-- `OrderBook` from `app/polymarket/models.py`: levels per side plus the
separately supplied best bid/ask. -/
structure OrderBook where
  bids : List OrderBookLevel
  asks : List OrderBookLevel
  bestBid : Option ℚ
  bestAsk : Option ℚ
deriving DecidableEq

/-- Volume-weighted slippage of adding `l` on top of the running
`(cumulative_usd, cumulative_shares)` totals, vs. the best price (loop body of
`max_safe_size_usd`).  `isAsk = true` for the ask side. -/
def stepSlippage (isAsk : Bool) (best cumUsd cumShares : ℚ) (l : OrderBookLevel) : ℚ :=
  let newShares := cumShares + l.size
  let newUsd := cumUsd + l.price * l.size
  let avgPrice := if newShares > 0 then newUsd / newShares else l.price
  if isAsk then (if best = 0 then 0 else (avgPrice - best) / best)
  else (if best = 0 then 0 else (best - avgPrice) / best)

/-- The level walk of `max_safe_size_usd`: accumulate cost until the first
level whose inclusion pushes slippage above the limit, then stop (the `break`
in the Python loop). -/
def depthWalk (limit best : ℚ) (isAsk : Bool) :
    List OrderBookLevel → ℚ → ℚ → ℚ
  | [], cumUsd, _ => cumUsd
  | l :: rest, cumUsd, cumShares =>
      if stepSlippage isAsk best cumUsd cumShares l > limit then cumUsd
      else depthWalk limit best isAsk rest (cumUsd + l.price * l.size) (cumShares + l.size)

/-- `max_safe_size_usd`: maximum USD size on one side of the book before
volume-weighted slippage exceeds the configured limit, rounded to cents. -/
def maxSafeSizeUsd (s : Settings) (book : OrderBook) (side : String) : ℚ :=
  let limit := s.slippageLimit
  let levels := if side = "ask" then book.asks else book.bids
  let best := if side = "ask" then book.bestAsk else book.bestBid
  match best with
  | none => 0
  | some b =>
      if levels = [] ∨ b ≤ 0 then 0
      else roundTo 2 (depthWalk limit b (side = "ask") levels 0 0)

/-- Spec-side view: total USD cost of a list of levels. -/
def levelsCost (ls : List OrderBookLevel) : ℚ :=
  (ls.map (fun l => l.price * l.size)).sum

/-- Spec-side view: total share count of a list of levels. -/
def levelsShares (ls : List OrderBookLevel) : ℚ :=
  (ls.map (fun l => l.size)).sum

/-- Spec-side view: whether the walk starting from the given totals accepts
every level of the list (each successive inclusion keeps the volume-weighted
slippage within the limit). -/
def acceptsAll (limit best : ℚ) (isAsk : Bool) : ℚ → ℚ → List OrderBookLevel → Bool
  | _, _, [] => true
  | cumUsd, cumShares, l :: rest =>
      if stepSlippage isAsk best cumUsd cumShares l > limit then false
      else acceptsAll limit best isAsk (cumUsd + l.price * l.size) (cumShares + l.size) rest

/-!
## Circuit breaker (`app/fetchers/base.py`)

`_circuits` maps a `source_id` to an optional `CircuitState`; since every
operation touches a single key, the state for one source is modelled as an
`Option CircuitState` and a call to `with_retry` as a step on that state.
The retry loop inside a single call (attempts, exponential-backoff sleeps) is
abstracted into one boolean — whether some attempt of `fetch_fn` succeeded —
because the circuit state is read once before the loop and written once after
it.  `time.monotonic()` at the moment of the call is the `now` argument.
-/

/-- `CircuitState` from `app/fetchers/base.py`. -/
structure CircuitState where
  failureCount : ℕ
  openUntil : ℚ
deriving DecidableEq

/-- Outcome of one `with_retry` call: short-circuited on an open circuit, or
fetched with success/failure of the underlying attempts. -/
inductive RetryOutcome where
  | circuitOpen
  | fetched (ok : Bool)
deriving DecidableEq

/-- `_circuit_open`: returns whether the circuit is open and the (possibly
reset) state.  Note the else-branch resets the state whenever
`open_until ≤ now`, even when the circuit was never opened. -/
def circuitOpenStep (now : ℚ) (st : Option CircuitState) : Bool × Option CircuitState :=
  match st with
  | none => (false, none)
  | some c =>
      if c.openUntil > now then (true, some c)
      else (false, some { failureCount := 0, openUntil := 0 })

/-- `_record_success`: reset the failure count when a state exists. -/
def recordSuccess (st : Option CircuitState) : Option CircuitState :=
  match st with
  | none => none
  | some c => some { c with failureCount := 0 }

/-- `_record_failure`: `setdefault` then increment; open the circuit when the
count reaches the threshold. -/
def recordFailure (s : Settings) (now : ℚ) (st : Option CircuitState) : Option CircuitState :=
  let c := st.getD { failureCount := 0, openUntil := 0 }
  let c1 : CircuitState := { c with failureCount := c.failureCount + 1 }
  if c1.failureCount ≥ s.circuitFailureThreshold then
    some { c1 with openUntil := now + s.circuitOpenSeconds }
  else some c1

/-- One `with_retry` call as a step on the circuit state of its source.
`succeeds` abstracts whether any of the `retry_attempts` attempts of
`fetch_fn` succeeded. -/
def withRetryStep (s : Settings) (now : ℚ) (succeeds : Bool)
    (st : Option CircuitState) : RetryOutcome × Option CircuitState :=
  let check := circuitOpenStep now st
  if check.1 then (RetryOutcome.circuitOpen, check.2)
  else if succeeds then (RetryOutcome.fetched true, recordSuccess check.2)
  else (RetryOutcome.fetched false, recordFailure s now check.2)

/-- A sequence of `with_retry` calls for one source: list of
`(time.monotonic(), fetch succeeded?)` events. -/
def runTrace (s : Settings) : List (ℚ × Bool) → Option CircuitState →
    List RetryOutcome × Option CircuitState
  | [], st => ([], st)
  | (now, ok) :: rest, st =>
      let step := withRetryStep s now ok st
      let tail := runTrace s rest step.2
      (step.1 :: tail.1, tail.2)

/-!
## Intraday 15m engine (`app/signal/engine_15m.py`)

A Binance kline row `[open_time, open, high, low, close, volume, ...]` is
modelled by the `Candle` structure (`openP` is the `open` price, index 1 of
the row).  The presentation-only parts of `run_engine_15m` (the `reasoning`
list of display dicts and the text of the liquidity-warning message) are not
modelled; the result carries the warning as the boolean condition that decides
whether the message is set.
-/

/-- `RSI_PERIOD`. -/
def rsiPeriod : ℕ := 14

/-- `MACD_FAST`. -/
def macdFast : ℕ := 12

/-- `MACD_SLOW`. -/
def macdSlow : ℕ := 26

/-- `MACD_SIGNAL`. -/
def macdSignal : ℕ := 9

/-- `VWAP_SLOPE_LOOKBACK`. -/
def vwapSlopeLookback : ℕ := 5

/-- `CANDLE_WINDOW_MINUTES`. -/
def candleWindowMinutes : ℚ := 15

/-- One 1-minute kline row. -/
structure Candle where
  openTime : ℚ
  openP : ℚ
  high : ℚ
  low : ℚ
  close : ℚ
  volume : ℚ
deriving DecidableEq

/-- `_typical_price`: `(high + low + close) / 3`. -/
def typicalPrice (c : Candle) : ℚ :=
  (c.high + c.low + c.close) / 3

/-- `_session_vwap`: cumulative VWAP over the whole window. -/
def sessionVwap (candles : List Candle) : Option ℚ :=
  if candles = [] then none
  else
    let totalPv := (candles.map (fun c => typicalPrice c * c.volume)).sum
    let totalV := (candles.map (fun c => c.volume)).sum
    if totalV ≤ 0 then none else some (totalPv / totalV)

/-- Accumulating loop of `_vwap_series`. -/
def vwapSeriesAux (totalPv totalV : ℚ) : List Candle → List ℚ
  | [] => []
  | c :: rest =>
      let tp := typicalPrice c
      let pv := totalPv + tp * c.volume
      let v := totalV + c.volume
      (if v > 0 then pv / v else tp) :: vwapSeriesAux pv v rest

/-- `_vwap_series`: cumulative VWAP at each bar. -/
def vwapSeries (candles : List Candle) : List ℚ :=
  vwapSeriesAux 0 0 candles

/-- `_rsi`: RSI of the last `period + 1` closes; `None` on short history. -/
def rsi (closes : List ℚ) (period : ℕ) : Option ℚ :=
  if closes.length < period + 1 then none
  else
    let w := closes.drop (closes.length - (period + 1))
    let diffs := (w.zip w.tail).map (fun p => p.2 - p.1)
    let gains := diffs.map (fun ch => if ch > 0 then ch else 0)
    let losses := diffs.map (fun ch => if ch > 0 then 0 else -ch)
    let avgGain := if gains = [] then 0 else gains.sum / period
    let avgLoss := if losses = [] then 0 else losses.sum / period
    if avgLoss = 0 then some 100
    else
      let rs := avgGain / avgLoss
      some (100 - 100 / (1 + rs))

/-- `_rsi_slope`: average change over the last `n` RSI values. -/
def rsiSlope (rsiSeries : List ℚ) (n : ℕ) : Option ℚ :=
  if rsiSeries.length < n then none
  else
    let tail := rsiSeries.drop (rsiSeries.length - n)
    if n = 0 then none else some ((tail.getLastD 0 - tail.headD 0) / n)

/-- `_ema`: EMA series whose first value is the SMA of the first `period`
values (`out[-1]` is `getLastD 0`; `out` is never empty in the fold). -/
def ema (values : List ℚ) (period : ℕ) : List ℚ :=
  if values.length < period then []
  else
    let mult := 2 / ((period : ℚ) + 1)
    let sma := (values.take period).sum / period
    (values.drop period).foldl
      (fun out v => out ++ [(v - out.getLastD 0) * mult + out.getLastD 0]) [sma]

/-- `_macd`: `(macd_line, signal_line, histogram)` at the last bar. -/
def macd (closes : List ℚ) (fast slow signal : ℕ) :
    Option ℚ × Option ℚ × Option ℚ :=
  if closes.length < slow + signal then (none, none, none)
  else
    let emaFast := ema closes fast
    let emaSlow := ema closes slow
    let n := emaSlow.length
    if emaFast.length < n then (none, none, none)
    else
      let macdLine := List.zipWith (fun a b => a - b) (emaFast.drop (emaFast.length - n)) emaSlow
      let signalLine := ema macdLine signal
      if signalLine.length < 1 then (none, none, none)
      else
        (some (macdLine.getLastD 0), some (signalLine.getLastD 0),
          some (macdLine.getLastD 0 - signalLine.getLastD 0))

/-- Heiken-Ashi color of `cur` given the previous candle: compare the HA close
of `cur` with the HA open derived from `prev` (shared by `_heiken_ashi_color`
and `_heiken_ashi_consecutive_count`). -/
def haColorPair (prev cur : Candle) : String :=
  let haC := (cur.openP + cur.high + cur.low + cur.close) / 4
  let haO := (prev.openP + prev.close) / 2
  if haC ≥ haO then "green" else "red"

/-- `_heiken_ashi_color`: color of the last bar. -/
def heikenAshiColor (candles : List Candle) : Option String :=
  if candles.length < 2 then none
  else
    match candles.reverse with
    | c1 :: c0 :: _ => some (haColorPair c0 c1)
    | _ => none

/-- `_heiken_ashi_consecutive_count`: length of the same-color run at the end. -/
def heikenAshiConsecutiveCount (candles : List Candle) : ℕ :=
  if candles.length < 2 then 0
  else
    let colors := (candles.zip candles.tail).map (fun p => haColorPair p.1 p.2)
    match colors.reverse with
    | [] => 0
    | last :: rest => 1 + (rest.takeWhile (fun c => c = last)).length

/-- `_score_direction`: additive up/down counters (base 1 each) turned into
`raw_up = up / (up + down)`. -/
def scoreDirection (lastPrice vwapNow vwapSlope rsiVal rsiSlopeVal macdHist : Option ℚ)
    (haColor : Option String) (haCount : ℕ) (failedVwapReclaim : Bool) : ℚ :=
  let p0 : ℚ × ℚ := (1, 1)
  let p1 :=
    match lastPrice, vwapNow with
    | some lp, some vn =>
        ((if lp > vn then p0.1 + 2 else p0.1), (if lp < vn then p0.2 + 2 else p0.2))
    | _, _ => p0
  let p2 :=
    match vwapSlope with
    | some vs => ((if vs > 0 then p1.1 + 2 else p1.1), (if vs < 0 then p1.2 + 2 else p1.2))
    | none => p1
  let p3 :=
    match rsiVal, rsiSlopeVal with
    | some r, some rsl =>
        ((if r > 55 ∧ rsl > 0 then p2.1 + 2 else p2.1),
          (if r < 45 ∧ rsl < 0 then p2.2 + 2 else p2.2))
    | _, _ => p2
  let p4 :=
    match macdHist with
    | some mh => ((if mh > 0 then p3.1 + 1 else p3.1), (if mh < 0 then p3.2 + 1 else p3.2))
    | none => p3
  let p5 :=
    match haColor with
    | some col =>
        ((if col = "green" ∧ haCount ≥ 2 then p4.1 + 1 else p4.1),
          (if col = "red" ∧ haCount ≥ 2 then p4.2 + 1 else p4.2))
    | none => p4
  let p6 : ℚ × ℚ := (p5.1, if failedVwapReclaim then p5.2 + 3 else p5.2)
  p6.1 / (p6.1 + p6.2)

/-- `_apply_time_awareness`: decay `raw_up` toward `0.5` as the window closes. -/
def applyTimeAwareness (rawUp : ℚ) (remainingMinutes : Option ℚ)
    (windowMinutes : ℚ) : ℚ × ℚ :=
  let timeDecay :=
    match remainingMinutes with
    | none => 0
    | some rm => if rm < 0 then 0 else min 1 (max 0 (rm / windowMinutes))
  let adjustedUp := max 0 (min 1 (1 / 2 + (rawUp - 1 / 2) * timeDecay))
  (adjustedUp, 1 - adjustedUp)

/-- `_compute_edge_up_down`: model minus normalized market price per side,
rounded to 4 decimal places. -/
def computeEdgeUpDown (modelUp modelDown : ℚ)
    (marketUpNorm marketDownNorm : Option ℚ) : Option ℚ × Option ℚ :=
  match marketUpNorm, marketDownNorm with
  | some mu, some md =>
      (some (roundTo 4 (modelUp - mu)), some (roundTo 4 (modelDown - md)))
  | _, _ => (none, none)

/-- `_decide`: phase-dependent thresholds keyed by remaining time
(`None` counts as 10 minutes), larger-edge side selection. -/
def decide15m (remainingMinutes : Option ℚ) (edgeUp edgeDown : Option ℚ)
    (modelUp modelDown : ℚ) : String × String :=
  let rem := remainingMinutes.getD 10
  let pt : String × ℚ × ℚ :=
    if rem > 10 then ("EARLY", 5 / 100, 55 / 100)
    else if rem > 5 then ("MID", 10 / 100, 60 / 100)
    else ("LATE", 20 / 100, 65 / 100)
  match edgeUp, edgeDown with
  | some eu, some ed =>
      let bestSide := if eu > ed then "BUY_UP" else "BUY_DOWN"
      let bestEdge := if bestSide = "BUY_UP" then eu else ed
      let bestModel := if bestSide = "BUY_UP" then modelUp else modelDown
      if bestEdge < pt.2.1 then ("NO_TRADE", pt.1)
      else if bestModel < pt.2.2 then ("NO_TRADE", pt.1)
      else (bestSide, pt.1)
  | _, _ => ("NO_TRADE", pt.1)

/-- `UpDownQuote` from `app/polymarket/models.py`. -/
structure UpDownQuote where
  upBuyPrice : ℚ
  downBuyPrice : ℚ
  marketUpNorm : ℚ
  marketDownNorm : ℚ
  maxSafeUpUsd : ℚ
  maxSafeDownUsd : ℚ
  spreadUp : Option ℚ
  spreadDown : Option ℚ
  liquidityNum : Option ℚ
deriving DecidableEq

/-- `Signal15mResult` (without the display-only `reasoning` breakdown;
`liquidityWarning` is the condition under which the warning message is set). -/
structure Signal15mResult where
  direction : String
  modelUp : ℚ
  modelDown : ℚ
  marketUpNorm : ℚ
  marketDownNorm : ℚ
  edgeUp : Option ℚ
  edgeDown : Option ℚ
  recommendedUsd : ℚ
  phase : String
  remainingMinutes : Option ℚ
  liquidityWarning : Bool

/-- `run_engine_15m`: TA scoring, time decay, edge computation, phase decision
and Kelly sizing over a window of 1m candles. -/
def runEngine15m (s : Settings) (quote : UpDownQuote) (remainingMinutes : Option ℚ)
    (bankrollUsd : ℚ) (candles1m : List Candle) : Signal15mResult :=
  if candles1m.length < rsiPeriod + 10 then
    { direction := "NO_TRADE"
      modelUp := 1 / 2
      modelDown := 1 / 2
      marketUpNorm := quote.marketUpNorm
      marketDownNorm := quote.marketDownNorm
      edgeUp := none
      edgeDown := none
      recommendedUsd := 0
      phase := "EARLY"
      remainingMinutes := remainingMinutes
      liquidityWarning := false }
  else
    let closes := candles1m.map (fun c => c.close)
    let lastPrice := closes.getLastD 0
    let vwapNow := sessionVwap candles1m
    let vs := vwapSeries candles1m
    let vwapSlope :=
      if vs.length ≥ vwapSlopeLookback then
        some ((vs.getLastD 0 - vs.getD (vs.length - vwapSlopeLookback) 0) /
          (vwapSlopeLookback : ℚ))
      else none
    let rsiVal := rsi closes rsiPeriod
    let rsiSer := (List.range' (rsiPeriod + 1) (closes.length - rsiPeriod)).filterMap
      (fun i => rsi (closes.take i) rsiPeriod)
    let rsiSlopeVal := if rsiSer = [] then none else rsiSlope rsiSer 3
    let macdHist := (macd closes macdFast macdSlow macdSignal).2.2
    let haCol := heikenAshiColor candles1m
    let haCount := heikenAshiConsecutiveCount candles1m
    let failedVwapReclaim :=
      match vwapNow with
      | some vn =>
          decide (3 ≤ vs.length) &&
            (decide (closes.getLastD 0 < vn) &&
              decide (closes.getD (closes.length - 2) 0 > vs.getD (vs.length - 2) 0))
      | none => false
    let rawUp := scoreDirection (some lastPrice) vwapNow vwapSlope rsiVal rsiSlopeVal
      macdHist haCol haCount failedVwapReclaim
    let md := applyTimeAwareness rawUp remainingMinutes candleWindowMinutes
    let modelUp := md.1
    let modelDown := md.2
    let edges := computeEdgeUpDown modelUp modelDown
      (some quote.marketUpNorm) (some quote.marketDownNorm)
    let dp := decide15m remainingMinutes edges.1 edges.2 modelUp modelDown
    let direction := dp.1
    let phase := dp.2
    let rw : ℚ × Bool :=
      if direction = "BUY_UP" then
        let r := recommendedSizeUsd s modelUp quote.marketUpNorm bankrollUsd
          quote.maxSafeUpUsd none none
        (r, decide (quote.maxSafeUpUsd < 100) || decide (r ≥ quote.maxSafeUpUsd * (99 / 100)))
      else if direction = "BUY_DOWN" then
        let priceNo := max (1 / 100) (min (99 / 100) quote.marketDownNorm)
        let r := recommendedSizeUsd s modelDown priceNo bankrollUsd
          quote.maxSafeDownUsd none none
        (r, decide (quote.maxSafeDownUsd < 100) || decide (r ≥ quote.maxSafeDownUsd * (99 / 100)))
      else ((0 : ℚ), false)
    { direction := direction
      modelUp := modelUp
      modelDown := modelDown
      marketUpNorm := quote.marketUpNorm
      marketDownNorm := quote.marketDownNorm
      edgeUp := edges.1
      edgeDown := edges.2
      recommendedUsd := rw.1
      phase := phase
      remainingMinutes := remainingMinutes
      liquidityWarning := rw.2 }

/-!
## Theorems

One theorem per claim (C1–C10), with counterexamples and witnesses where the
claim's statement requires them.
-/

theorem roundTo4_fixed_015 : roundTo 4 (15 / 100) = 15 / 100 := by
  norm_num [roundTo, round_eq]

theorem roundTo4_fixed_085 : roundTo 4 (85 / 100) = 85 / 100 := by
  norm_num [roundTo, round_eq]

/-- The linear interior map of `score_to_model_p`. -/
def scoreLinMap (score : ℚ) : ℚ :=
  15 / 100 + (score + 2) / 4 * (70 / 100)

theorem scoreLinMap_mono {x y : ℚ} (h : x ≤ y) : scoreLinMap x ≤ scoreLinMap y := by
  unfold scoreLinMap
  linarith

theorem scoreToModelP_bounds (x : ℚ) :
    15 / 100 ≤ scoreToModelP x ∧ scoreToModelP x ≤ 85 / 100 := by
  unfold scoreToModelP
  split_ifs with h1 h2
  · norm_num
  · norm_num
  · constructor
    · calc (15 : ℚ) / 100 = roundTo 4 (15 / 100) := roundTo4_fixed_015.symm
        _ ≤ roundTo 4 (15 / 100 + (x + 2) / 4 * (70 / 100)) := by
            apply roundTo_mono
            push_neg at h1
            nlinarith
    · rw [← roundTo4_fixed_085]
      apply roundTo_mono
      push_neg at h2
      nlinarith

theorem scoreToModelP_mono {x y : ℚ} (h : x ≤ y) :
    scoreToModelP x ≤ scoreToModelP y := by
  by_cases hx : x ≤ -2
  · calc scoreToModelP x = 15 / 100 := by rw [scoreToModelP, if_pos hx]
      _ ≤ scoreToModelP y := (scoreToModelP_bounds y).1
  · by_cases hy : y ≥ 2
    · calc scoreToModelP x ≤ 85 / 100 := (scoreToModelP_bounds x).2
        _ = scoreToModelP y := by
            rw [scoreToModelP, if_neg (by push_neg at hx ⊢; linarith), if_pos hy]
    · rw [scoreToModelP, scoreToModelP, if_neg hx,
        if_neg (by push_neg at hx ⊢; linarith : ¬ y ≤ -2),
        if_neg (by push_neg at hy ⊢; linarith : ¬ x ≥ 2), if_neg hy]
      exact roundTo_mono 4 (by linarith)

/-- C4 (amended).  `score_to_model_p` stays in `[0.15, 0.85]`, is monotone
non-decreasing, hits `0.15 / 0.50 / 0.85` at scores `-2 / 0 / 2`, and on the
open interval `(-2, 2)` equals the linear map `0.15 + (s+2)/4*0.70` *rounded
to 4 decimal places* (the claim's exact-equality clause only holds after
rounding, see the counterexample). -/
theorem C4_score_to_model_p (x y : ℚ) (hxy : x ≤ y) :
    (15 / 100 ≤ scoreToModelP x ∧ scoreToModelP x ≤ 85 / 100) ∧
    scoreToModelP x ≤ scoreToModelP y ∧
    scoreToModelP (-2) = 15 / 100 ∧
    scoreToModelP 0 = 1 / 2 ∧
    scoreToModelP 2 = 85 / 100 ∧
    (-2 < x → x < 2 → scoreToModelP x = roundTo 4 (15 / 100 + (x + 2) / 4 * (70 / 100))) := by
  refine ⟨scoreToModelP_bounds x, scoreToModelP_mono hxy, ?_, ?_, ?_, ?_⟩
  · rw [scoreToModelP, if_pos (by norm_num)]
  · rw [scoreToModelP, if_neg (by norm_num), if_neg (by norm_num)]
    norm_num [roundTo, round_eq]
  · rw [scoreToModelP, if_neg (by norm_num), if_pos (by norm_num)]
  · intro h1 h2
    rw [scoreToModelP, if_neg (by linarith), if_neg (by push_neg; linarith)]

/-- Witness for C4 at `x = -1`, `y = 1`. -/
theorem C4_witness :
    ((15 / 100 ≤ scoreToModelP (-1) ∧ scoreToModelP (-1) ≤ 85 / 100) ∧
      scoreToModelP (-1) ≤ scoreToModelP 1 ∧
      scoreToModelP (-2) = 15 / 100 ∧
      scoreToModelP 0 = 1 / 2 ∧
      scoreToModelP 2 = 85 / 100 ∧
      (-2 < (-1 : ℚ) → (-1 : ℚ) < 2 →
        scoreToModelP (-1) = roundTo 4 (15 / 100 + ((-1) + 2) / 4 * (70 / 100)))) :=
  C4_score_to_model_p (-1) 1 (by norm_num)

/-- C4 counterexample: at score `1/10000` the code returns the rounded value
`0.5`, not the exact linear-map value `0.5000175` the claim states. -/
theorem C4_counterexample :
    scoreToModelP (1 / 10000) = 1 / 2 ∧
    (15 / 100 + ((1 / 10000 : ℚ) + 2) / 4 * (70 / 100) ≠ 1 / 2) ∧
    -2 < (1 / 10000 : ℚ) ∧ (1 / 10000 : ℚ) < 2 := by
  refine ⟨?_, by norm_num, by norm_num, by norm_num⟩
  rw [scoreToModelP, if_neg (by norm_num), if_neg (by norm_num)]
  norm_num [roundTo, round_eq]

/-- C1 (amended).  The edge gate behaves as the claim states with the edges
*rounded to 4 decimal places* (the code compares `round(p - m, 4)` and
`round(b - p, 4)` to the threshold, not the raw differences): YES iff the
rounded YES-edge reaches the threshold (inclusive), NO iff it does not and a
bid is supplied whose rounded NO-edge reaches the threshold (inclusive),
NO_TRADE otherwise; NO is never returned without a bid. -/
theorem C1_edge_gate (s : Settings) (p m : ℚ) (b : Option ℚ) :
    ((directionFromEdge s p m b).1 = "YES" ↔ s.edgeThreshold ≤ roundTo 4 (p - m)) ∧
    ((directionFromEdge s p m b).1 = "NO" ↔
      roundTo 4 (p - m) < s.edgeThreshold ∧
        ∃ bv, b = some bv ∧ s.edgeThreshold ≤ roundTo 4 (bv - p)) ∧
    ((directionFromEdge s p m b).1 = "NO_TRADE" ↔
      roundTo 4 (p - m) < s.edgeThreshold ∧
        ∀ bv, b = some bv → roundTo 4 (bv - p) < s.edgeThreshold) ∧
    (b = none → (directionFromEdge s p m b).1 ≠ "NO") := by
  cases b with
  | none =>
      simp only [directionFromEdge, computeEdge]
      split_ifs with h1
      · rw [ge_iff_le] at h1
        refine ⟨by simpa using h1, ?_, ?_, by simp⟩
        · constructor
          · intro hc; simp at hc
          · rintro ⟨hlt, -⟩; exact absurd h1 (not_le.mpr hlt)
        · constructor
          · intro hc; simp at hc
          · rintro ⟨hlt, -⟩; exact absurd h1 (not_le.mpr hlt)
      · rw [ge_iff_le, not_le] at h1
        refine ⟨?_, ?_, ?_, by simp⟩
        · constructor
          · intro hc; simp at hc
          · intro hle; exact absurd h1 (not_lt.mpr hle)
        · constructor
          · intro hc; simp at hc
          · rintro ⟨-, bv, hbv, -⟩; exact hbv.elim
        · exact ⟨fun _ => ⟨h1, fun bv hbv => hbv.elim⟩, fun _ => by simp⟩
  | some bv =>
      simp only [directionFromEdge, computeEdge]
      split_ifs with h1 h2
      · rw [ge_iff_le] at h1
        refine ⟨by simpa using h1, ?_, ?_, fun hn => hn.elim⟩
        · constructor
          · intro hc; simp at hc
          · rintro ⟨hlt, -⟩; exact absurd h1 (not_le.mpr hlt)
        · constructor
          · intro hc; simp at hc
          · rintro ⟨hlt, -⟩; exact absurd h1 (not_le.mpr hlt)
      · rw [ge_iff_le, not_le] at h1
        rw [ge_iff_le] at h2
        refine ⟨?_, ?_, ?_, fun hn => hn.elim⟩
        · constructor
          · intro hc; simp at hc
          · intro hle; exact absurd h1 (not_lt.mpr hle)
        · exact ⟨fun _ => ⟨h1, bv, rfl, h2⟩, fun _ => by simp⟩
        · constructor
          · intro hc; simp at hc
          · rintro ⟨-, hall⟩; exact absurd h2 (not_le.mpr (hall bv rfl))
      · rw [ge_iff_le, not_le] at h1 h2
        refine ⟨?_, ?_, ?_, fun hn => hn.elim⟩
        · constructor
          · intro hc; simp at hc
          · intro hle; exact absurd h1 (not_lt.mpr hle)
        · constructor
          · intro hc; simp at hc
          · rintro ⟨-, bv2, hbv2, hle⟩
            obtain rfl : bv2 = bv := by injection hbv2.symm
            exact absurd h2 (not_lt.mpr hle)
        · refine ⟨fun _ => ⟨h1, fun bv2 hbv2 => ?_⟩, fun _ => by simp⟩
          obtain rfl : bv2 = bv := by injection hbv2.symm
          exact h2

/-- Witness for C1 at `p = 0.7`, `m = 0.6` with no bid. -/
theorem C1_witness :
    (((directionFromEdge defaultSettings (7/10) (6/10) none).1 = "YES" ↔
        defaultSettings.edgeThreshold ≤ roundTo 4 ((7:ℚ)/10 - 6/10)) ∧
      ((directionFromEdge defaultSettings (7/10) (6/10) none).1 = "NO" ↔
        roundTo 4 ((7:ℚ)/10 - 6/10) < defaultSettings.edgeThreshold ∧
          ∃ bv, (none : Option ℚ) = some bv ∧
            defaultSettings.edgeThreshold ≤ roundTo 4 (bv - 7/10)) ∧
      ((directionFromEdge defaultSettings (7/10) (6/10) none).1 = "NO_TRADE" ↔
        roundTo 4 ((7:ℚ)/10 - 6/10) < defaultSettings.edgeThreshold ∧
          ∀ bv, (none : Option ℚ) = some bv → roundTo 4 (bv - 7/10) < defaultSettings.edgeThreshold) ∧
      ((none : Option ℚ) = none → (directionFromEdge defaultSettings (7/10) (6/10) none).1 ≠ "NO")) :=
  C1_edge_gate defaultSettings (7/10) (6/10) none

/-- C1 counterexample: with the default 5% threshold, `p = 0.6`,
`m = 0.55004` and no bid, the raw edge `p - m = 0.04996` is *below* the
threshold — the claim then demands NO_TRADE — but the code rounds the edge to
`0.05` and returns YES. -/
theorem C1_counterexample :
    (directionFromEdge defaultSettings (3/5) (13751/25000) none).1 = "YES" ∧
    ¬((3:ℚ)/5 - 13751/25000 ≥ defaultSettings.edgeThreshold) := by
  constructor
  · norm_num [directionFromEdge, computeEdge, roundTo, round_eq, defaultSettings]
  · norm_num [defaultSettings]

theorem kellyFraction_nonneg (p price : ℚ) : 0 ≤ kellyFraction p price := by
  simp only [kellyFraction]
  split_ifs
  · exact le_refl 0
  · exact le_max_left 0 _

/-- C2 (amended).  `recommended_size_usd` (with no Kelly override, as in the
claim) is never negative, and — because the three-way min is rounded *to
cents* at the end — it lies within half a cent (`1/200`) above each cap:
`bankroll * kelly_fraction_used`, `bankroll * max_bankroll_pct`,
`max_safe_size_usd`, and any explicit *positive* user cap (a non-positive
user cap is ignored by the code, see C9 and the counterexample). -/
theorem C2_size_caps (s : Settings) (p m bank msafe : ℚ) (cap : Option ℚ)
    (hb : 0 ≤ bank) (hm : 0 ≤ msafe)
    (hf : 0 ≤ s.kellyFraction) (hc : 0 ≤ s.maxBankrollPct) :
    0 ≤ recommendedSizeUsd s p m bank msafe cap none ∧
    recommendedSizeUsd s p m bank msafe cap none ≤
      bank * kellyFraction p m * s.kellyFraction + 1 / 200 ∧
    recommendedSizeUsd s p m bank msafe cap none ≤ bank * s.maxBankrollPct + 1 / 200 ∧
    recommendedSizeUsd s p m bank msafe cap none ≤ msafe + 1 / 200 ∧
    (∀ c, cap = some c → 0 < c →
      recommendedSizeUsd s p m bank msafe cap none ≤ c + 1 / 200) := by
  have hk : 0 ≤ kellyFraction p m := kellyFraction_nonneg p m
  have hkelly : (0 : ℚ) ≤ bank * kellyFraction p m * s.kellyFraction :=
    mul_nonneg (mul_nonneg hb hk) hf
  have hcappct : (0 : ℚ) ≤ bank * s.maxBankrollPct := mul_nonneg hb hc
  have h0 : (0 : ℚ) ≤ min (min (bank * kellyFraction p m * s.kellyFraction)
      (bank * s.maxBankrollPct)) msafe := le_min (le_min hkelly hcappct) hm
  cases cap with
  | none =>
      simp only [recommendedSizeUsd, Option.getD]
      refine ⟨roundTo_nonneg 2 h0, ?_, ?_, ?_, fun c hcap => Option.noConfusion hcap⟩
      · exact le_trans (roundTo_two_le _)
          (by linarith [min_le_left (min (bank * kellyFraction p m * s.kellyFraction)
            (bank * s.maxBankrollPct)) msafe,
            min_le_left (bank * kellyFraction p m * s.kellyFraction) (bank * s.maxBankrollPct)])
      · exact le_trans (roundTo_two_le _)
          (by linarith [min_le_left (min (bank * kellyFraction p m * s.kellyFraction)
            (bank * s.maxBankrollPct)) msafe,
            min_le_right (bank * kellyFraction p m * s.kellyFraction) (bank * s.maxBankrollPct)])
      · exact le_trans (roundTo_two_le _)
          (by linarith [min_le_right (min (bank * kellyFraction p m * s.kellyFraction)
            (bank * s.maxBankrollPct)) msafe])
  | some c =>
      by_cases hpos : c > 0
      · simp only [recommendedSizeUsd, Option.getD, if_pos hpos]
        have hmin : min (min (min (bank * kellyFraction p m * s.kellyFraction)
            (bank * s.maxBankrollPct)) msafe) c ≤
            min (min (bank * kellyFraction p m * s.kellyFraction)
            (bank * s.maxBankrollPct)) msafe := min_le_left _ _
        refine ⟨roundTo_nonneg 2 (le_min h0 (le_of_lt hpos)), ?_, ?_, ?_, ?_⟩
        · exact le_trans (roundTo_two_le _)
            (by linarith [min_le_left (min (bank * kellyFraction p m * s.kellyFraction)
              (bank * s.maxBankrollPct)) msafe,
              min_le_left (bank * kellyFraction p m * s.kellyFraction) (bank * s.maxBankrollPct)])
        · exact le_trans (roundTo_two_le _)
            (by linarith [min_le_left (min (bank * kellyFraction p m * s.kellyFraction)
              (bank * s.maxBankrollPct)) msafe,
              min_le_right (bank * kellyFraction p m * s.kellyFraction) (bank * s.maxBankrollPct)])
        · exact le_trans (roundTo_two_le _)
            (by linarith [min_le_right (min (bank * kellyFraction p m * s.kellyFraction)
              (bank * s.maxBankrollPct)) msafe])
        · intro c2 hc2 _
          have hcc : c ≤ c2 := by
            injection hc2 with h
            exact le_of_eq h
          exact le_trans (roundTo_two_le _)
            (by linarith [min_le_right (min (min (bank * kellyFraction p m * s.kellyFraction)
              (bank * s.maxBankrollPct)) msafe) c])
      · simp only [recommendedSizeUsd, Option.getD, if_neg hpos]
        refine ⟨roundTo_nonneg 2 h0, ?_, ?_, ?_, ?_⟩
        · exact le_trans (roundTo_two_le _)
            (by linarith [min_le_left (min (bank * kellyFraction p m * s.kellyFraction)
              (bank * s.maxBankrollPct)) msafe,
              min_le_left (bank * kellyFraction p m * s.kellyFraction) (bank * s.maxBankrollPct)])
        · exact le_trans (roundTo_two_le _)
            (by linarith [min_le_left (min (bank * kellyFraction p m * s.kellyFraction)
              (bank * s.maxBankrollPct)) msafe,
              min_le_right (bank * kellyFraction p m * s.kellyFraction) (bank * s.maxBankrollPct)])
        · exact le_trans (roundTo_two_le _)
            (by linarith [min_le_right (min (bank * kellyFraction p m * s.kellyFraction)
              (bank * s.maxBankrollPct)) msafe])
        · intro c2 hc2 hc2pos
          obtain rfl : c2 = c := by injection hc2.symm
          exact absurd hc2pos hpos

/-- Witness for C2: default settings, `p = 0.7`, `m = 0.6`, bankroll 1000,
liquidity cap 500, no user cap. -/
theorem C2_witness :
    ((0 : ℚ) ≤ 1000 ∧ (0 : ℚ) ≤ 500 ∧
      0 ≤ defaultSettings.kellyFraction ∧ 0 ≤ defaultSettings.maxBankrollPct) ∧
    (0 ≤ recommendedSizeUsd defaultSettings (7/10) (6/10) 1000 500 none none ∧
      recommendedSizeUsd defaultSettings (7/10) (6/10) 1000 500 none none ≤
        1000 * kellyFraction (7/10) (6/10) * defaultSettings.kellyFraction + 1 / 200 ∧
      recommendedSizeUsd defaultSettings (7/10) (6/10) 1000 500 none none ≤
        1000 * defaultSettings.maxBankrollPct + 1 / 200 ∧
      recommendedSizeUsd defaultSettings (7/10) (6/10) 1000 500 none none ≤ 500 + 1 / 200 ∧
      (∀ c, (none : Option ℚ) = some c → 0 < c →
        recommendedSizeUsd defaultSettings (7/10) (6/10) 1000 500 none none ≤ c + 1 / 200)) :=
  ⟨⟨by norm_num, by norm_num, by norm_num [defaultSettings], by norm_num [defaultSettings]⟩,
    C2_size_caps defaultSettings (7/10) (6/10) 1000 500 none
      (by norm_num) (by norm_num) (by norm_num [defaultSettings]) (by norm_num [defaultSettings])⟩

/-- C2 counterexample.  (1) With bankroll `100.12` the pre-rounding minimum is
the bankroll cap `100.12 * 0.05 = 5.006`, which rounds *up* to `5.01` — the
returned size exceeds `bankroll * max_bankroll_pct`, so the claim's
`≤`-each-cap statement fails.  (2) A user cap of `−1` is ignored, so the
result also fails to respect a non-positive "explicit user cap". -/
theorem C2_counterexample :
    recommendedSizeUsd defaultSettings (9/10) (1/2) (2503/25) 1000 none none = 501/100 ∧
    ¬(recommendedSizeUsd defaultSettings (9/10) (1/2) (2503/25) 1000 none none ≤
        (2503/25 : ℚ) * defaultSettings.maxBankrollPct) ∧
    recommendedSizeUsd defaultSettings (9/10) (1/2) 100 1000 (some (-1)) none = 5 ∧
    ¬(recommendedSizeUsd defaultSettings (9/10) (1/2) 100 1000 (some (-1)) none ≤ -1) := by
  have h1 : recommendedSizeUsd defaultSettings (9/10) (1/2) (2503/25) 1000 none none
      = 501/100 := by
    norm_num [recommendedSizeUsd, kellyFraction, defaultSettings, roundTo, round_eq,
      min_def, max_def]
  have h2 : recommendedSizeUsd defaultSettings (9/10) (1/2) 100 1000 (some (-1)) none
      = 5 := by
    norm_num [recommendedSizeUsd, kellyFraction, defaultSettings, roundTo, round_eq,
      min_def, max_def]
  refine ⟨h1, ?_, h2, ?_⟩
  · rw [h1]
    norm_num [defaultSettings]
  · rw [h2]
    norm_num

/-- C9.  A non-positive user cap is ignored: `recommended_size_usd` with
`max_bet_usd ≤ 0` equals the call with `max_bet_usd = None`. -/
theorem C9_nonpositive_cap_ignored (s : Settings) (p m bank msafe : ℚ)
    (c : ℚ) (hc : c ≤ 0) (ko : Option ℚ) :
    recommendedSizeUsd s p m bank msafe (some c) ko =
      recommendedSizeUsd s p m bank msafe none ko := by
  simp only [recommendedSizeUsd]
  rw [if_neg (by linarith : ¬ c > 0)]

/-- Witness for C9 at `c = 0`. -/
theorem C9_witness :
    (0 : ℚ) ≤ 0 ∧
    recommendedSizeUsd defaultSettings (7/10) (6/10) 1000 500 (some 0) none =
      recommendedSizeUsd defaultSettings (7/10) (6/10) 1000 500 none none :=
  ⟨le_refl 0, C9_nonpositive_cap_ignored defaultSettings (7/10) (6/10) 1000 500 0 (le_refl 0) none⟩

theorem activeWeight_all_none (w : String → ℚ) (rs : List (String × Option ℚ)) :
    activeWeight w (rs.map (fun r => (r.1, (none : Option ℚ)))) = 0 := by
  induction rs with
  | nil => simp [activeWeight]
  | cons r rest ih => simpa [activeWeight] using ih

/-- C3.  `weighted_score` returns exactly `0.0` when the accumulated weight of
the non-null results is `≤ 0` (in particular when every score is null), and
otherwise the clamp to `[-2, 2]` of the weighted sum divided by the weight
actually observed; renormalization makes a single `+2` source at weight `1`
with all other sources null yield exactly `+2`. -/
theorem C3_weighted_score (w : String → ℚ) (rs rs0 : List (String × Option ℚ)) :
    (weightedScore w rs =
      if activeWeight w rs ≤ 0 then 0
      else max (-2) (min 2 (activeTotal w rs / activeWeight w rs))) ∧
    weightedScore w (rs0.map (fun r => (r.1, (none : Option ℚ)))) = 0 ∧
    weightedScore (fun id => if id = "solo" then 1 else 1/4)
      [("solo", some 2), ("dxy", none), ("macro", none)] = 2 := by
  refine ⟨weightedScore_eq w rs, ?_, ?_⟩
  · rw [weightedScore_eq, activeWeight_all_none]
    simp
  · rw [weightedScore_eq]
    simp [activeWeight, activeTotal]

/-- C5 evaluation (code bug).  With the default threshold of 3, four
consecutive calls that each exhaust all retry attempts (at times 1 s, 2 s,
3 s, 4 s) all reach the fetch function — none is short-circuited — and the
final state still records only one failure with no open deadline:
`_circuit_open` resets `failure_count` to `0` on every call whose circuit is
not currently open (its else-branch runs whenever `open_until ≤ now`, which
also holds for the initial `open_until = 0`), so consecutive failures never
accumulate and the circuit never opens for thresholds `≥ 2`.  With threshold
1 (the only configuration the repo's own test exercises), the remaining
clauses of the claim do hold: the failure at `t = 1` opens the circuit until
`t = 301`, the call at `t = 2` short-circuits with no fetch and no state
change, and the first call past the deadline (`t = 302`) resets the state and
attempts the fetch again. -/
theorem C5_circuit_never_accumulates :
    (runTrace defaultSettings [(1, false), (2, false), (3, false), (4, false)] none).1 =
      [RetryOutcome.fetched false, RetryOutcome.fetched false,
        RetryOutcome.fetched false, RetryOutcome.fetched false] ∧
    (runTrace defaultSettings [(1, false), (2, false), (3, false), (4, false)] none).2 =
      some { failureCount := 1, openUntil := 0 } ∧
    (runTrace { defaultSettings with circuitFailureThreshold := 1 }
        [(1, false), (2, false), (302, false)] none).1 =
      [RetryOutcome.fetched false, RetryOutcome.circuitOpen, RetryOutcome.fetched false] ∧
    (runTrace { defaultSettings with circuitFailureThreshold := 1 }
        [(1, false), (2, false), (302, false)] none).2 =
      some { failureCount := 1, openUntil := 602 } := by
  refine ⟨?_, ?_, ?_, ?_⟩ <;>
    norm_num [runTrace, withRetryStep, circuitOpenStep, recordFailure, recordSuccess,
      defaultSettings]

theorem levelsCost_cons (l : OrderBookLevel) (ls : List OrderBookLevel) :
    levelsCost (l :: ls) = l.price * l.size + levelsCost ls := by
  simp [levelsCost]

theorem levelsShares_cons (l : OrderBookLevel) (ls : List OrderBookLevel) :
    levelsShares (l :: ls) = l.size + levelsShares ls := by
  simp [levelsShares]

theorem depthWalk_append (limit best : ℚ) (isAsk : Bool) (pre rest : List OrderBookLevel) :
    ∀ u sh : ℚ, acceptsAll limit best isAsk u sh pre = true →
      depthWalk limit best isAsk (pre ++ rest) u sh =
        depthWalk limit best isAsk rest (u + levelsCost pre) (sh + levelsShares pre) := by
  induction pre with
  | nil =>
      intro u sh _
      simp [levelsCost, levelsShares]
  | cons l pre ih =>
      intro u sh hacc
      rw [acceptsAll] at hacc
      by_cases hstep : stepSlippage isAsk best u sh l > limit
      · rw [if_pos hstep] at hacc
        exact absurd hacc (by simp)
      · rw [if_neg hstep] at hacc
        rw [List.cons_append, depthWalk, if_neg hstep, ih _ _ hacc,
          levelsCost_cons, levelsShares_cons]
        ring_nf

theorem depthWalk_stop (limit best : ℚ) (isAsk : Bool) (viol : OrderBookLevel)
    (post : List OrderBookLevel) (u sh : ℚ)
    (h : limit < stepSlippage isAsk best u sh viol) :
    depthWalk limit best isAsk (viol :: post) u sh = u := by
  rw [depthWalk, if_pos h]

theorem depthWalk_all (limit best : ℚ) (isAsk : Bool) (ls : List OrderBookLevel) :
    ∀ u sh : ℚ, acceptsAll limit best isAsk u sh ls = true →
      depthWalk limit best isAsk ls u sh = u + levelsCost ls := by
  induction ls with
  | nil =>
      intro u sh _
      simp [depthWalk, levelsCost]
  | cons l ls ih =>
      intro u sh hacc
      rw [acceptsAll] at hacc
      by_cases hstep : stepSlippage isAsk best u sh l > limit
      · rw [if_pos hstep] at hacc
        exact absurd hacc (by simp)
      · rw [if_neg hstep] at hacc
        rw [depthWalk, if_neg hstep, ih _ _ hacc, levelsCost_cons]
        ring

/-- C6 (amended).  `max_safe_size_usd` returns `0` when the chosen side's
levels are empty, the best price is missing, or the best price is
non-positive; on a single-level book whose level does not violate the
slippage limit it returns `price * size` *rounded to 2 decimals* (the claim's
"exactly" fails because of the final `round(…, 2)`, see the counterexample);
in general it stops before the first level whose inclusion pushes the
volume-weighted slippage above the limit and returns the cost accumulated so
far, rounded to 2 decimals. -/
theorem C6_max_safe_size (s : Settings) (book : OrderBook) (side : String) :
    ((if side = "ask" then book.asks else book.bids) = [] →
      maxSafeSizeUsd s book side = 0) ∧
    ((if side = "ask" then book.bestAsk else book.bestBid) = none →
      maxSafeSizeUsd s book side = 0) ∧
    (∀ bb, (if side = "ask" then book.bestAsk else book.bestBid) = some bb → bb ≤ 0 →
      maxSafeSizeUsd s book side = 0) ∧
    (∀ l bb, (if side = "ask" then book.asks else book.bids) = [l] →
      (if side = "ask" then book.bestAsk else book.bestBid) = some bb → 0 < bb →
      stepSlippage (side = "ask") bb 0 0 l ≤ s.slippageLimit →
      maxSafeSizeUsd s book side = roundTo 2 (l.price * l.size)) ∧
    (∀ pre viol post bb,
      (if side = "ask" then book.asks else book.bids) = pre ++ viol :: post →
      (if side = "ask" then book.bestAsk else book.bestBid) = some bb → 0 < bb →
      acceptsAll s.slippageLimit bb (side = "ask") 0 0 pre = true →
      s.slippageLimit < stepSlippage (side = "ask") bb (levelsCost pre) (levelsShares pre) viol →
      maxSafeSizeUsd s book side = roundTo 2 (levelsCost pre)) ∧
    (∀ bb, (if side = "ask" then book.bestAsk else book.bestBid) = some bb → 0 < bb →
      acceptsAll s.slippageLimit bb (side = "ask") 0 0
        (if side = "ask" then book.asks else book.bids) = true →
      maxSafeSizeUsd s book side =
        roundTo 2 (levelsCost (if side = "ask" then book.asks else book.bids))) := by
  refine ⟨?_, ?_, ?_, ?_, ?_, ?_⟩
  · intro hlv
    unfold maxSafeSizeUsd
    cases hb : (if side = "ask" then book.bestAsk else book.bestBid) with
    | none => simp [hb]
    | some bb => simp [hb, hlv]
  · intro hb
    unfold maxSafeSizeUsd
    simp [hb]
  · intro bb hb hle
    unfold maxSafeSizeUsd
    simp only [hb]
    rw [if_pos (Or.inr hle)]
  · intro l bb hlv hb hpos hstep
    unfold maxSafeSizeUsd
    simp only [hb, hlv]
    rw [if_neg (by simp [not_le.mpr hpos])]
    rw [depthWalk, if_neg (not_lt.mpr hstep), depthWalk]
    norm_num
  · intro pre viol post bb hlv hb hpos hacc hstep
    unfold maxSafeSizeUsd
    simp only [hb, hlv]
    rw [if_neg (by simp [not_le.mpr hpos])]
    rw [depthWalk_append s.slippageLimit bb (side = "ask") pre (viol :: post) 0 0 hacc,
      depthWalk_stop _ _ _ _ _ _ _ (by simpa using hstep)]
    norm_num
  · intro bb hb hpos hacc
    unfold maxSafeSizeUsd
    simp only [hb]
    cases hlv : (if side = "ask" then book.asks else book.bids) with
    | nil => simp [hlv, levelsCost, roundTo]
    | cons l ls =>
        rw [if_neg (by simp [hlv, not_le.mpr hpos])]
        rw [hlv] at hacc
        rw [depthWalk_all _ _ _ _ _ _ hacc]
        norm_num

/-- Witness for C6: a single-level ask book (price 0.5, size 2, best ask 0.5),
no slippage, cost `0.5 * 2 = 1`. -/
theorem C6_witness :
    maxSafeSizeUsd defaultSettings
      { bids := [], asks := [{ price := 1/2, size := 2 }],
        bestBid := none, bestAsk := some (1/2) } "ask" =
      roundTo 2 ((1/2 : ℚ) * 2) :=
  (C6_max_safe_size defaultSettings
    { bids := [], asks := [{ price := 1/2, size := 2 }],
      bestBid := none, bestAsk := some (1/2) } "ask").2.2.2.1
    { price := 1/2, size := 2 } (1/2) (by norm_num) (by norm_num) (by norm_num)
    (by norm_num [stepSlippage, defaultSettings])

/-- C6 counterexample: a single-level ask book with price 0.5 and size 0.125
violates no slippage constraint, but the code returns
`round(0.0625, 2) = 0.06`, not `price * size = 0.0625` exactly as the claim
states. -/
theorem C6_counterexample :
    maxSafeSizeUsd defaultSettings
      { bids := [], asks := [{ price := 1/2, size := 1/8 }],
        bestBid := none, bestAsk := some (1/2) } "ask" = 6/100 ∧
    (6/100 : ℚ) ≠ (1/2) * (1/8) ∧
    stepSlippage true (1/2) 0 0 { price := 1/2, size := 1/8 } ≤
      defaultSettings.slippageLimit := by
  refine ⟨?_, by norm_num, by norm_num [stepSlippage, defaultSettings]⟩
  norm_num [maxSafeSizeUsd, depthWalk, stepSlippage, defaultSettings, roundTo, round_eq]

/-- The decision the claim describes for one phase: take the side with the
larger edge (ties fall to Down, as in the code) and require both the edge and
the model probability to reach the phase thresholds. -/
def specDecision (threshold minProb eu ed mu md : ℚ) : String :=
  if eu > ed then (if threshold ≤ eu ∧ minProb ≤ mu then "BUY_UP" else "NO_TRADE")
  else (if threshold ≤ ed ∧ minProb ≤ md then "BUY_DOWN" else "NO_TRADE")

theorem decide15m_spec (rem : ℚ) (eu ed mu md : ℚ) (phase : String)
    (threshold minProb : ℚ)
    (hpt : (if rem > 10 then (("EARLY" : String), (5/100 : ℚ), (55/100 : ℚ))
      else if rem > 5 then ("MID", 10/100, 60/100)
      else ("LATE", 20/100, 65/100)) = (phase, threshold, minProb)) :
    decide15m (some rem) (some eu) (some ed) mu md =
      (specDecision threshold minProb eu ed mu md, phase) := by
  simp only [decide15m, Option.getD, hpt, specDecision]
  by_cases hside : eu > ed
  · simp only [if_pos hside, if_true]
    by_cases he : eu < threshold
    · rw [if_pos he, if_neg (by rw [not_and_or]; left; exact not_le.mpr he)]
    · rw [if_neg he]
      by_cases hm : mu < minProb
      · rw [if_pos hm, if_neg (by rw [not_and_or]; right; exact not_le.mpr hm)]
      · rw [if_neg hm, if_pos ⟨not_lt.mp he, not_lt.mp hm⟩]
  · simp only [if_neg hside, if_false,
      if_neg (show ¬ (("BUY_DOWN" : String) = "BUY_UP") by decide)]
    by_cases he : ed < threshold
    · rw [if_pos he, if_neg (by rw [not_and_or]; left; exact not_le.mpr he)]
    · rw [if_neg he]
      by_cases hm : md < minProb
      · rw [if_pos hm, if_neg (by rw [not_and_or]; right; exact not_le.mpr hm)]
      · rw [if_neg hm, if_pos ⟨not_lt.mp he, not_lt.mp hm⟩]

/-- C8 (amended).  The `_decide` policy picks the side with the larger edge
(ties to Down) and gates it with phase thresholds: EARLY (`rem > 10`) needs
edge ≥ 0.05 and prob ≥ 0.55, MID (`5 < rem ≤ 10`) needs edge ≥ 0.10 and
prob ≥ 0.60, LATE (`rem ≤ 5`) needs edge ≥ 0.20 and prob ≥ 0.65; a missing
edge forces NO_TRADE and a missing remaining time counts as 10 minutes (MID).
The claim's "LATE (<5 min)" boundary is amended to `rem ≤ 5`: at exactly 5
minutes the code already applies the LATE thresholds (see the
counterexample). -/
theorem C8_decide_policy (rem : ℚ) (eu ed mu md : ℚ) :
    (10 < rem → decide15m (some rem) (some eu) (some ed) mu md =
      (specDecision (5/100) (55/100) eu ed mu md, "EARLY")) ∧
    (5 < rem → rem ≤ 10 → decide15m (some rem) (some eu) (some ed) mu md =
      (specDecision (10/100) (60/100) eu ed mu md, "MID")) ∧
    (rem ≤ 5 → decide15m (some rem) (some eu) (some ed) mu md =
      (specDecision (20/100) (65/100) eu ed mu md, "LATE")) ∧
    (decide15m none (some eu) (some ed) mu md =
      (specDecision (10/100) (60/100) eu ed mu md, "MID")) ∧
    ((decide15m (some rem) none (some ed) mu md).1 = "NO_TRADE") ∧
    ((decide15m (some rem) (some eu) none mu md).1 = "NO_TRADE") := by
  refine ⟨?_, ?_, ?_, ?_, ?_, ?_⟩
  · intro h
    exact decide15m_spec rem eu ed mu md "EARLY" (5/100) (55/100) (by rw [if_pos h])
  · intro h5 h10
    exact decide15m_spec rem eu ed mu md "MID" (10/100) (60/100)
      (by rw [if_neg (not_lt.mpr h10), if_pos h5])
  · intro h
    exact decide15m_spec rem eu ed mu md "LATE" (20/100) (65/100)
      (by rw [if_neg (by push_neg; linarith), if_neg (not_lt.mpr h)])
  · have : decide15m none (some eu) (some ed) mu md =
        decide15m (some 10) (some eu) (some ed) mu md := by
      simp [decide15m]
    rw [this]
    exact decide15m_spec 10 eu ed mu md "MID" (10/100) (60/100) (by norm_num)
  · simp [decide15m]
  · simp [decide15m]

/-- Witness for C8 in the EARLY phase (`rem = 12`). -/
theorem C8_witness :
    decide15m (some 12) (some (6/100)) (some 0) (6/10) (4/10) =
      (specDecision (5/100) (55/100) (6/100) 0 (6/10) (4/10), "EARLY") :=
  (C8_decide_policy 12 (6/100) 0 (6/10) (4/10)).1 (by norm_num)

/-- C8 counterexample: at exactly `remaining_minutes = 5` — which is not
`< 5`, so by the claim it belongs to the MID (5–10 min) bucket — an Up edge
of 0.15 ≥ 0.10 with model probability 0.62 ≥ 0.60 should trade, but the code
classifies the moment as LATE and returns NO_TRADE. -/
theorem C8_counterexample :
    decide15m (some 5) (some (15/100)) (some 0) (62/100) (38/100) = ("NO_TRADE", "LATE") ∧
    ¬((5 : ℚ) < 5) ∧ (10/100 : ℚ) ≤ 15/100 ∧ (60/100 : ℚ) ≤ 62/100 := by
  refine ⟨?_, by norm_num, by norm_num, by norm_num⟩
  norm_num [decide15m]

theorem applyTimeAwareness_zero (raw w : ℚ) :
    applyTimeAwareness raw (some 0) w = (1/2, 1/2) := by
  simp only [applyTimeAwareness]
  norm_num

theorem decide15m_half (eu ed : Option ℚ) :
    decide15m (some 0) eu ed (1/2) (1/2) = ("NO_TRADE", "LATE") := by
  cases eu with
  | none =>
      simp [decide15m]
      norm_num
  | some eu =>
      cases ed with
      | none =>
          simp [decide15m]
          norm_num
      | some ed =>
          simp only [decide15m, Option.getD]
          rw [if_neg (by norm_num : ¬ (0:ℚ) > 10), if_neg (by norm_num : ¬ (0:ℚ) > 5)]
          by_cases hside : eu > ed
          · simp only [if_pos hside, if_true]
            by_cases he : eu < 20/100
            · rw [if_pos he]
            · rw [if_neg he, if_pos (by norm_num : (1:ℚ)/2 < 65/100)]
          · simp only [if_neg hside, if_false,
              if_neg (show ¬ (("BUY_DOWN" : String) = "BUY_UP") by decide)]
            by_cases he : ed < 20/100
            · rw [if_pos he]
            · rw [if_neg he, if_pos (by norm_num : (1:ℚ)/2 < 65/100)]

/-- C7.  With `remaining_minutes = 0` and sufficient candle history, the time
decay fully neutralizes the raw TA score: `model_up = model_down = 0.5`
exactly, and the decision is `NO_TRADE` (in the LATE phase) for every quote
and bankroll. -/
theorem C7_time_decay_neutral (s : Settings) (q : UpDownQuote) (bank : ℚ)
    (cs : List Candle) (h : rsiPeriod + 10 ≤ cs.length) :
    (runEngine15m s q (some 0) bank cs).modelUp = 1/2 ∧
    (runEngine15m s q (some 0) bank cs).modelDown = 1/2 ∧
    (runEngine15m s q (some 0) bank cs).direction = "NO_TRADE" ∧
    (runEngine15m s q (some 0) bank cs).phase = "LATE" := by
  have hlt : ¬ cs.length < rsiPeriod + 10 := not_lt.mpr h
  simp only [runEngine15m, if_neg hlt, applyTimeAwareness_zero, decide15m_half]
  exact ⟨trivial, trivial, trivial, trivial⟩

/-- Witness for C7: 24 identical candles, a symmetric quote, bankroll 100. -/
theorem C7_witness :
    rsiPeriod + 10 ≤ (List.replicate 24
      { openTime := 0, openP := 1, high := 1, low := 1, close := 1, volume := 0 : Candle }).length ∧
    (runEngine15m defaultSettings
      { upBuyPrice := 1/2, downBuyPrice := 1/2, marketUpNorm := 1/2, marketDownNorm := 1/2,
        maxSafeUpUsd := 100, maxSafeDownUsd := 100,
        spreadUp := none, spreadDown := none, liquidityNum := none }
      (some 0) 100 (List.replicate 24
        { openTime := 0, openP := 1, high := 1, low := 1, close := 1, volume := 0 })).direction
      = "NO_TRADE" :=
  ⟨by simp [rsiPeriod],
    (C7_time_decay_neutral defaultSettings
      { upBuyPrice := 1/2, downBuyPrice := 1/2, marketUpNorm := 1/2, marketDownNorm := 1/2,
        maxSafeUpUsd := 100, maxSafeDownUsd := 100,
        spreadUp := none, spreadDown := none, liquidityNum := none }
      100 (List.replicate 24
        { openTime := 0, openP := 1, high := 1, low := 1, close := 1, volume := 0 })
      (by simp [rsiPeriod])).2.2.1⟩

/-- C10.  `_apply_time_awareness` (at the engine's 15-minute window) always
returns a pair with `model_up ∈ [0, 1]` and `model_down = 1 - model_up`, for
every raw score and every remaining time (`None` and negative included), and
`run_engine_15m` always reports `model_up + model_down = 1` exactly. -/
theorem C10_model_sum (raw : ℚ) (rem : Option ℚ) (s : Settings) (q : UpDownQuote)
    (bank : ℚ) (cs : List Candle) :
    0 ≤ (applyTimeAwareness raw rem candleWindowMinutes).1 ∧
    (applyTimeAwareness raw rem candleWindowMinutes).1 ≤ 1 ∧
    (applyTimeAwareness raw rem candleWindowMinutes).2 =
      1 - (applyTimeAwareness raw rem candleWindowMinutes).1 ∧
    (runEngine15m s q rem bank cs).modelUp + (runEngine15m s q rem bank cs).modelDown = 1 := by
  have hpair : ∀ r : ℚ, ∀ rm : Option ℚ, ∀ w : ℚ,
      (applyTimeAwareness r rm w).2 = 1 - (applyTimeAwareness r rm w).1 := by
    intro r rm w
    simp [applyTimeAwareness]
  refine ⟨?_, ?_, hpair raw rem candleWindowMinutes, ?_⟩
  · simp only [applyTimeAwareness]
    exact le_max_left 0 _
  · simp only [applyTimeAwareness]
    exact max_le (by norm_num) (min_le_left 1 _)
  · by_cases hlen : cs.length < rsiPeriod + 10
    · simp only [runEngine15m, if_pos hlen]
      norm_num
    · simp only [runEngine15m, if_neg hlen]
      rw [hpair]
      ring
